import Mathlib

/-!
Verification of the migration-safety DDL analyzer
(`src/migrationSafetyAnalyzer/main.py`).

The Python source is shallowly embedded over `List Char` (the type `Str`
below).  Python strings become `Str`; the handwritten regular-expression
uses of the source (`re.sub`, `re.search`, `re.findall` on the five fixed
patterns) are embedded as deterministic scanners that implement exactly the
leftmost-match semantics those patterns have; Python `dict` (which is
insertion-ordered) becomes an association list; statements that can raise
(`AttributeError` from `.group(1)` on a failed match, `IndexError` from
out-of-range indexing, `KeyError` from a missing dict key) are embedded by
threading an `Option PyErr`: a `some e` outcome means the corresponding
Python exception propagates out of `parse_ddl`.
-/

/-- Python strings, as lists of characters. -/
abbrev Str := List Char

/-- Coerce a Lean string literal to the embedding's string type. -/
def chars (s : String) : Str := s.data

/-- The apostrophe character (used by the analyzer's issue messages). -/
def quoteCh : Char := Char.ofNat 39

/-- The whitespace characters recognized by Python's `str.strip` /
`str.split()` and by the regex class `\s`, restricted to ASCII
(space, tab, newline, carriage return, vertical tab, form feed). -/
def pyIsSpace (c : Char) : Bool :=
  c == ' ' || c == '\t' || c == '\n' || c == '\r' ||
  c == Char.ofNat 11 || c == Char.ofNat 12

/-- The regex word-character class `\w`, ASCII fragment: letters, digits
and underscore. -/
def isWordChar (c : Char) : Bool :=
  c.isAlpha || c.isDigit || c == '_'

/-- Python `str.upper()` (ASCII). -/
def toUpperStr (s : Str) : Str := s.map Char.toUpper

/-- Python `str.split(sep)` for a one-character separator: the pieces of
`s` between occurrences of `sep`.  `"".split(sep)` is `[""]`. -/
def splitOnChar (sep : Char) : Str → List Str
  | [] => [[]]
  | c :: rest =>
      if c = sep then [] :: splitOnChar sep rest
      else
        match splitOnChar sep rest with
        | [] => [[c]]
        | s :: ss => (c :: s) :: ss

/-- Helper for `splitWS`: `cur` is the word being read, reversed. -/
def splitWSAux (cur : Str) : Str → List Str
  | [] => if cur = [] then [] else [cur.reverse]
  | c :: rest =>
      if pyIsSpace c then
        if cur = [] then splitWSAux [] rest
        else cur.reverse :: splitWSAux [] rest
      else splitWSAux (c :: cur) rest

/-- Python `str.split()` (split on runs of whitespace, dropping empties). -/
def splitWS (s : Str) : List Str := splitWSAux [] s

/-- Python `str.split(None, 2)`: at most two splits on whitespace runs;
the third element, when present, is the remainder with its leading
whitespace consumed but internal and trailing whitespace kept. -/
def splitWSMax2 (s : Str) : List Str :=
  let s1 := s.dropWhile pyIsSpace
  match s1 with
  | [] => []
  | _ =>
    let t1 := s1.takeWhile (fun c => !pyIsSpace c)
    let r1 := s1.dropWhile (fun c => !pyIsSpace c)
    let s2 := r1.dropWhile pyIsSpace
    match s2 with
    | [] => [t1]
    | _ =>
      let t2 := s2.takeWhile (fun c => !pyIsSpace c)
      let r2 := s2.dropWhile (fun c => !pyIsSpace c)
      let s3 := r2.dropWhile pyIsSpace
      match s3 with
      | [] => [t1, t2]
      | _ => [t1, t2, s3]

/-- Drop a maximal all-whitespace suffix. -/
def dropTrailing : Str → Str
  | [] => []
  | c :: rest =>
      match dropTrailing rest with
      | [] => if pyIsSpace c then [] else [c]
      | r => c :: r

/-- Python `str.strip()`: remove leading and trailing whitespace. -/
def pyStrip (s : Str) : Str := dropTrailing (s.dropWhile pyIsSpace)

/-- Python `needle in hay` on strings: substring test. -/
def isSubstrOf (needle : Str) : Str → Bool
  | [] => needle.isEmpty
  | hay@(_ :: rest) => needle.isPrefixOf hay || isSubstrOf needle rest

/-- The global substitution `re.sub(r"--.*$", "", ddl, flags=re.MULTILINE)`:
state machine over the characters; the `Bool` flag is `true` while inside a
line comment (text from `--` up to, not including, the next newline). -/
def rlAux : Bool → Str → Str
  | false, [] => []
  | false, '-' :: '-' :: rest => rlAux true rest
  | false, c :: rest => c :: rlAux false rest
  | true, [] => []
  | true, '\n' :: rest => '\n' :: rlAux false rest
  | true, _ :: rest => rlAux true rest

/-- Remove line comments (`--` to end of line). -/
def removeLineComments (s : Str) : Str := rlAux false s

/-- The global substitution `re.sub(r"/\*.*?\*/", "", ddl, flags=re.DOTALL)`:
state machine over the characters.  Outside a comment (`none`) characters
are copied and `/*` opens a comment; inside a comment (`some pend`, the
text consumed so far, reversed) the nearest `*/` closes it and discards the
span, while end of input with no closer emits the consumed text unchanged —
exactly the behaviour of the non-greedy pattern, which does not match an
unterminated comment at all. -/
def rbAux : Option Str → Str → Str
  | none, [] => []
  | none, '/' :: '*' :: rest => rbAux (some ['*', '/']) rest
  | none, c :: rest => c :: rbAux none rest
  | some pend, [] => pend.reverse
  | some _, '*' :: '/' :: rest => rbAux none rest
  | some pend, c :: rest => rbAux (some (c :: pend)) rest

/-- Remove block comments (`/*` to the nearest following `*/`). -/
def removeBlockComments (s : Str) : Str := rbAux none s

/-- `DDLAnalyzer._split_statements`: strip line comments, strip block
comments, split on `;`, strip each piece, drop empty pieces. -/
def split_statements (ddl : Str) : List Str :=
  ((splitOnChar ';' (removeBlockComments (removeLineComments ddl))).map
    pyStrip).filter (fun s => !s.isEmpty)

/-! ## Regex scanners

The source uses five fixed regular expressions.  Each is embedded as a
deterministic scanner with Python's leftmost-match semantics; the shapes
involved (`KW1\s+KW2\s+(\w+)` with IGNORECASE, greedy `\((.*)\)` with
DOTALL, and the first match of `\(([^)]+)\)`) have no ambiguous
backtracking, so the scanners below are exact. -/

/-- Case-insensitive literal match at the front: the remainder of `s`
after the (uppercase) keyword `kw`, if `kw` is a prefix of `s` up to
ASCII case. -/
def dropKeywordCI : Str → Str → Option Str
  | [], s => some s
  | _ :: _, [] => none
  | k :: ks, c :: cs => if c.toUpper = k then dropKeywordCI ks cs else none

/-- Try to match `KW1\s+KW2\s+(\w+)` (IGNORECASE) anchored at the start of
`s`; on success return the captured identifier (the maximal `\w+` run) and
the remainder of `s` after the whole match. -/
def matchKKIAt (kw1 kw2 : Str) (s : Str) : Option (Str × Str) :=
  match dropKeywordCI kw1 s with
  | none => none
  | some r1 =>
    if (r1.takeWhile pyIsSpace).isEmpty then none
    else
      match dropKeywordCI kw2 (r1.dropWhile pyIsSpace) with
      | none => none
      | some r2 =>
        if (r2.takeWhile pyIsSpace).isEmpty then none
        else
          let r3 := r2.dropWhile pyIsSpace
          let ident := r3.takeWhile isWordChar
          if ident.isEmpty then none
          else some (ident, r3.dropWhile isWordChar)

/-- `re.search(r"KW1\s+KW2\s+(\w+)", s, re.IGNORECASE)`: try every start
position left to right; return the captured identifier and the text after
the match (`s[m.end():]`). -/
def searchKKI (kw1 kw2 : Str) : Str → Option (Str × Str)
  | [] => none
  | s@(_ :: rest) =>
      match matchKKIAt kw1 kw2 s with
      | some r => some r
      | none => searchKKI kw1 kw2 rest

/-- Helper for `re.search(r"\((.*)\)", s, re.DOTALL)`: the text after the
first left parenthesis that has some right parenthesis after it. -/
def afterFirstLParen : Str → Option Str
  | [] => none
  | '(' :: rest => if rest.contains ')' then some rest else afterFirstLParen rest
  | _ :: rest => afterFirstLParen rest

/-- The prefix of `s` that ends just before the last right parenthesis. -/
def upToLastRParen (s : Str) : Str :=
  ((s.reverse.dropWhile (fun c => c != ')')).drop 1).reverse

/-- `re.search(r"\((.*)\)", s, re.DOTALL)`, group 1: with the greedy `.*`,
the capture runs from the first `(` (that has a closer anywhere after it)
to the last `)` of the whole string. -/
def parenBodyGreedy (s : Str) : Option Str :=
  match afterFirstLParen s with
  | none => none
  | some rest => some (upToLastRParen rest)

/-- First match of `re.findall(r"\(([^)]+)\)", s)`: the first `(` followed
by at least one non-`)` character and then a `)`; group 1 is the run of
non-`)` characters. -/
def firstParenInner : Str → Option Str
  | [] => none
  | '(' :: rest =>
      let inner := rest.takeWhile (fun c => c != ')')
      if !inner.isEmpty && inner.length < rest.length then some inner
      else firstParenInner rest
  | _ :: rest => firstParenInner rest

/-! ## AST definitions (the `@dataclass` declarations of the source) -/

/-- `ColumnDef`: a parsed column definition.  The source's `default` field
is declared but never assigned a non-`None` value by any builder; it is
kept here for fidelity. -/
structure ColumnDef where
  name : Str
  col_type : Str
  nullable : Bool
  default : Option Str
  is_primary_key : Bool
deriving DecidableEq, Repr

/-- `AlterAction`: the tagged union of ALTER TABLE actions. -/
inductive AlterAction where
  | dropColumn (column_name : Str)
  | addColumn (column : ColumnDef)
  | setNotNull (column_name : Str)
deriving DecidableEq, Repr

/-- `DDLNode`: the tagged union over the three recognized statements,
each carrying the raw statement text. -/
inductive DDLNode where
  | createTable (table_name : Str) (columns : List ColumnDef)
      (table_primary_key : List Str) (raw_sql : Str)
  | alterTable (table_name : Str) (actions : List AlterAction) (raw_sql : Str)
  | dropTable (table_name : Str) (raw_sql : Str)
deriving DecidableEq, Repr

/-! ## Python dicts as insertion-ordered association lists -/

/-- `d[k] = v` on a Python dict: update in place if the key exists
(keeping its position), else append. -/
def alistSet {β : Type} (k : Str) (v : β) : List (Str × β) → List (Str × β)
  | [] => [(k, v)]
  | (k2, v2) :: rest =>
      if k2 = k then (k, v) :: rest else (k2, v2) :: alistSet k v rest

/-- `d.pop(k, None)` on a Python dict: remove the entry if present. -/
def alistPop {β : Type} (k : Str) : List (Str × β) → List (Str × β)
  | [] => []
  | (k2, v2) :: rest =>
      if k2 = k then rest else (k2, v2) :: alistPop k rest

/-- `d[k]` lookup / `k in d` on a Python dict. -/
def alistGet {β : Type} (k : Str) : List (Str × β) → Option β
  | [] => none
  | (k2, v2) :: rest => if k2 = k then some v2 else alistGet k rest

/-! ## Analyzer state and the exceptions the source can raise -/

/-- The schema model's per-column record `{"type": ..., "nullable": ...}`. -/
structure ColInfo where
  col_type : Str
  nullable : Bool
deriving DecidableEq, Repr

/-- The schema model's per-table record
`{"columns": {...}, "primary_key": [...]}`. -/
structure TableInfo where
  columns : List (Str × ColInfo)
  primary_key : List Str
deriving DecidableEq, Repr

/-- The exceptions the source can raise while parsing or folding:
`AttributeError` from `.group(1)` on a failed `re.search`, `IndexError`
from list indexing, `KeyError` from a missing dict key. -/
inductive PyErr where
  | attributeError
  | indexError
  | keyError
deriving DecidableEq, Repr

/-- The mutable fields of a `DDLAnalyzer` instance
(`self.tables`, `self.issues`, `self.ast`). -/
structure AnalyzerState where
  tables : List (Str × TableInfo)
  issues : List Str
  ast : List DDLNode
deriving DecidableEq, Repr

/-- `DDLAnalyzer.__init__`: empty schema model, no issues, no AST nodes. -/
def initState : AnalyzerState := ⟨[], [], []⟩

/-! ## Issue messages (the f-strings of the source) -/

/-- `f"Table '{table}' missing PRIMARY KEY"` -/
def issueMissingPK (table : Str) : Str :=
  chars "Table " ++ [quoteCh] ++ table ++ [quoteCh] ++ chars " missing PRIMARY KEY"

/-- `f"Potential data loss: DROP COLUMN '{col}' on '{table}'"` -/
def issueDropColumn (col table : Str) : Str :=
  chars "Potential data loss: DROP COLUMN " ++ [quoteCh] ++ col ++ [quoteCh] ++
    chars " on " ++ [quoteCh] ++ table ++ [quoteCh]

/-- `f"Adding NOT NULL column '{col}' without default on '{table}'"` -/
def issueAddNotNull (col table : Str) : Str :=
  chars "Adding NOT NULL column " ++ [quoteCh] ++ col ++ [quoteCh] ++
    chars " without default on " ++ [quoteCh] ++ table ++ [quoteCh]

/-- `f"Risky: SET NOT NULL on '{table}.{col}'"` -/
def issueSetNotNull (table col : Str) : Str :=
  chars "Risky: SET NOT NULL on " ++ [quoteCh] ++ table ++ ['.'] ++ col ++ [quoteCh]

/-- `f"CRITICAL: DROP TABLE '{table}'"` -/
def issueDropTable (table : Str) : Str :=
  chars "CRITICAL: DROP TABLE " ++ [quoteCh] ++ table ++ [quoteCh]

/-! ## AST builders (`DDLAnalyzer._build_*_ast`) -/

/-- One step of the per-part loop of `_build_create_table_ast`: fold a
stripped comma-part into the accumulated `(columns, table_pk)`. -/
def createPartStep (acc : List ColumnDef × List Str) (part : Str) :
    List ColumnDef × List Str :=
  let (cols, table_pk) := acc
  let upper := toUpperStr part
  if (chars "PRIMARY KEY").isPrefixOf upper then
    match firstParenInner part with
    | some inner =>
        (cols, table_pk ++ (splitOnChar ',' inner).map pyStrip)
    | none => (cols, table_pk)
  else
    match splitWS part with
    | col_name :: col_type :: _ =>
        (cols ++ [{ name := col_name, col_type := col_type,
                    nullable := !isSubstrOf (chars "NOT NULL") upper,
                    default := none,
                    is_primary_key := isSubstrOf (chars "PRIMARY KEY") upper }],
         table_pk)
    | _ => (cols, table_pk)

/-- `DDLAnalyzer._build_create_table_ast`.  Returns `none` when the table
name cannot be located; never raises. -/
def build_create_table_ast (statement : Str) : Option DDLNode :=
  match searchKKI (chars "CREATE") (chars "TABLE") statement with
  | none => none
  | some (table_name, _) =>
    let parts : List Str :=
      match parenBodyGreedy statement with
      | some body => (splitOnChar ',' body).map pyStrip
      | none => []
    let cp := parts.foldl createPartStep ([], [])
    some (.createTable table_name cp.1 cp.2 statement)

/-- One action clause of `_build_alter_table_ast`: classify a stripped
comma-part, producing no action, one action, or an exception
(`AttributeError` from `.group(1)` on a failed search, `IndexError` from
`split(None, 2)[2]` / `tokens[1]`). -/
def buildAlterAction (act : Str) : Except PyErr (List AlterAction) :=
  let upper := toUpperStr act
  if isSubstrOf (chars "DROP COLUMN") upper then
    match searchKKI (chars "DROP") (chars "COLUMN") act with
    | some (col, _) => .ok [.dropColumn col]
    | none => .error .attributeError
  else if (chars "ADD COLUMN").isPrefixOf upper then
    match splitWSMax2 act with
    | [_, _, col_def] =>
        match splitWS col_def with
        | col_name :: col_type :: _ =>
            .ok [.addColumn { name := col_name, col_type := col_type,
                              nullable := !isSubstrOf (chars "NOT NULL") upper,
                              default := none, is_primary_key := false }]
        | _ => .error .indexError
    | _ => .error .indexError
  else if isSubstrOf (chars "SET NOT NULL") upper then
    match searchKKI (chars "ALTER") (chars "COLUMN") act with
    | some (col, _) => .ok [.setNotNull col]
    | none => .error .attributeError
  else .ok []

/-- The action loop of `_build_alter_table_ast`, aborting at the first
raised exception. -/
def buildAlterActions : List Str → Except PyErr (List AlterAction)
  | [] => .ok []
  | act :: more =>
      match buildAlterAction act with
      | .error e => .error e
      | .ok a =>
          match buildAlterActions more with
          | .error e => .error e
          | .ok rest => .ok (a ++ rest)

/-- `DDLAnalyzer._build_alter_table_ast`.  Returns `.ok none` when the
table name cannot be located; propagates exceptions from action clauses. -/
def build_alter_table_ast (statement : Str) : Except PyErr (Option DDLNode) :=
  match searchKKI (chars "ALTER") (chars "TABLE") statement with
  | none => .ok none
  | some (table_name, afterMatch) =>
    let rest := pyStrip afterMatch
    let action_parts := (splitOnChar ',' rest).map pyStrip
    match buildAlterActions action_parts with
    | .error e => .error e
    | .ok actions => .ok (some (.alterTable table_name actions statement))

/-- `DDLAnalyzer._build_drop_table_ast`.  The source calls `.group(1)` on
the search result with no `None` check, so a statement in which the
pattern `DROP\s+TABLE\s+(\w+)` does not occur raises `AttributeError`. -/
def build_drop_table_ast (statement : Str) : Except PyErr (Option DDLNode) :=
  match searchKKI (chars "DROP") (chars "TABLE") statement with
  | some (table_name, _) => .ok (some (.dropTable table_name statement))
  | none => .error .attributeError

/-- `DDLAnalyzer._build_ast`: dispatch on a case-insensitive prefix of the
statement, in the order CREATE TABLE, ALTER TABLE, DROP TABLE; anything
else produces no node. -/
def build_ast (statement : Str) : Except PyErr (Option DDLNode) :=
  let upper := toUpperStr statement
  if (chars "CREATE TABLE").isPrefixOf upper then
    .ok (build_create_table_ast statement)
  else if (chars "ALTER TABLE").isPrefixOf upper then
    build_alter_table_ast statement
  else if (chars "DROP TABLE").isPrefixOf upper then
    build_drop_table_ast statement
  else .ok none

/-! ## Schema folding (`DDLAnalyzer._analyze_*`) -/

/-- `DDLAnalyzer._analyze_create`: overwrite the table entry with the
parsed columns; the recorded primary key is the table-level names followed
by the inline-marked column names; append the missing-PRIMARY-KEY issue
exactly when that list is empty. -/
def analyze_create (st : AnalyzerState) (table : Str)
    (columns : List ColumnDef) (table_primary_key : List Str) :
    AnalyzerState :=
  let cols := columns.foldl
    (fun m c => alistSet c.name ⟨c.col_type, c.nullable⟩ m) []
  let pk := table_primary_key ++
    (columns.filter (fun c => c.is_primary_key)).map (fun c => c.name)
  { st with
    tables := alistSet table ⟨cols, pk⟩ st.tables,
    issues := if pk = [] then st.issues ++ [issueMissingPK table] else st.issues }

/-- One ALTER action of `DDLAnalyzer._analyze_alter`.  `DropColumn`
appends its issue and then evaluates `self.tables[table]` — a `KeyError`
if the table is unknown (the issue is already recorded at that point).
`AddColumn` evaluates `self.tables[table]` first — a `KeyError` before any
issue — and appends its issue only for a non-nullable column.
`SetNotNull` appends its issue and touches no schema state. -/
def applyAlterAction (table : Str) (st : AnalyzerState) :
    AlterAction → AnalyzerState × Option PyErr
  | .dropColumn col =>
      let st1 := { st with issues := st.issues ++ [issueDropColumn col table] }
      match alistGet table st1.tables with
      | none => (st1, some .keyError)
      | some ti =>
          let ti2 : TableInfo := { ti with columns := alistPop col ti.columns }
          ({ st1 with tables := alistSet table ti2 st1.tables }, none)
  | .addColumn c =>
      match alistGet table st.tables with
      | none => (st, some .keyError)
      | some ti =>
          let ti2 : TableInfo :=
            { ti with columns := alistSet c.name ⟨c.col_type, c.nullable⟩ ti.columns }
          let st1 := { st with tables := alistSet table ti2 st.tables }
          if c.nullable then (st1, none)
          else ({ st1 with issues := st1.issues ++ [issueAddNotNull c.name table] },
                none)
  | .setNotNull col =>
      ({ st with issues := st.issues ++ [issueSetNotNull table col] }, none)

/-- The action loop of `DDLAnalyzer._analyze_alter`, stopping at the first
raised exception with the state mutated so far. -/
def analyze_alter (table : Str) (st : AnalyzerState) :
    List AlterAction → AnalyzerState × Option PyErr
  | [] => (st, none)
  | a :: rest =>
      match applyAlterAction table st a with
      | (st1, some e) => (st1, some e)
      | (st1, none) => analyze_alter table st1 rest

/-- `DDLAnalyzer._analyze_drop`: append the CRITICAL issue, then remove
the table entry if present (`dict.pop` with a default — no exception). -/
def analyze_drop (st : AnalyzerState) (table : Str) : AnalyzerState :=
  { st with
    issues := st.issues ++ [issueDropTable table],
    tables := alistPop table st.tables }

/-- `DDLAnalyzer._analyze_node`: dispatch on the node kind. -/
def analyze_node (st : AnalyzerState) : DDLNode → AnalyzerState × Option PyErr
  | .createTable t cols tpk _ => (analyze_create st t cols tpk, none)
  | .alterTable t acts _ => analyze_alter t st acts
  | .dropTable t _ => (analyze_drop st t, none)

/-! ## Summary and the public API -/

/-- The summary dict of `DDLAnalyzer._generate_summary`. -/
structure Summary where
  total_tables : Nat
  total_issues : Nat
  critical_issues : Nat
deriving DecidableEq, Repr

/-- `DDLAnalyzer._generate_summary`: recomputed from the current state;
`critical_issues` counts the issues whose text contains `CRITICAL`. -/
def generate_summary (st : AnalyzerState) : Summary :=
  { total_tables := st.tables.length,
    total_issues := st.issues.length,
    critical_issues :=
      (st.issues.filter (fun i => isSubstrOf (chars "CRITICAL") i)).length }

/-- The dict returned by `DDLAnalyzer.parse_ddl`. -/
structure ParseResult where
  tables : List (Str × TableInfo)
  issues : List Str
  summary : Summary
  ast : List DDLNode
deriving DecidableEq, Repr

/-- The statement loop of `parse_ddl`: build each statement's node (a
skipped statement contributes nothing), append the node to `self.ast`,
fold it into the schema state.  A raised exception aborts the loop with
the state mutated so far. -/
def runStatements (st : AnalyzerState) : List Str → AnalyzerState × Option PyErr
  | [] => (st, none)
  | stmt :: rest =>
      match build_ast stmt with
      | .error e => (st, some e)
      | .ok none => runStatements st rest
      | .ok (some node) =>
          let st1 := { st with ast := st.ast ++ [node] }
          match analyze_node st1 node with
          | (st2, some e) => (st2, some e)
          | (st2, none) => runStatements st2 rest

/-- `DDLAnalyzer.parse_ddl`: split the script, process each statement,
and return the analyzer's current tables, issues, summary and AST list.
The first component is the analyzer's state after the call (the object's
fields); a `none` second component means a Python exception propagated out
of the call instead of a result being returned. -/
def parse_ddl (st : AnalyzerState) (ddl : Str) :
    AnalyzerState × Option ParseResult :=
  match runStatements st (split_statements ddl) with
  | (st2, some _) => (st2, none)
  | (st2, none) =>
      (st2, some { tables := st2.tables, issues := st2.issues,
                   summary := generate_summary st2, ast := st2.ast })

/-! ## Helper lemmas -/

theorem alistGet_set_self {β : Type} (k : Str) (v : β) (l : List (Str × β)) :
    alistGet k (alistSet k v l) = some v := by
  induction l with
  | nil => simp [alistSet, alistGet]
  | cons p rest ih =>
      obtain ⟨k2, v2⟩ := p
      by_cases h : k2 = k
      · simp [alistSet, alistGet, h]
      · simp [alistSet, alistGet, h, ih]

theorem dropWhile_head_not {p : Char → Bool} {l : Str} {c : Char} {t : Str}
    (h : l.dropWhile p = c :: t) : p c = false := by
  induction l with
  | nil => simp [List.dropWhile] at h
  | cons a l ih =>
      by_cases ha : p a
      · exact ih (by simpa [List.dropWhile, ha] using h)
      · rw [List.dropWhile_cons_of_neg ha] at h
        cases h
        simpa using ha

theorem dropTrailing_sublist (l : Str) : (dropTrailing l).Sublist l := by
  induction l with
  | nil => simp [dropTrailing]
  | cons c rest ih =>
      rw [dropTrailing]
      rcases h : dropTrailing rest with _ | ⟨r0, rs⟩
      · by_cases hc : pyIsSpace c
        · simp [hc]
        · simp [hc]
      · rw [h] at ih
        exact ih.cons₂ c

theorem dropTrailing_head {l : Str} {c : Char} {t : Str}
    (h : dropTrailing l = c :: t) : l.head? = some c := by
  cases l with
  | nil => simp [dropTrailing] at h
  | cons a rest =>
      rw [dropTrailing] at h
      rcases h2 : dropTrailing rest with _ | ⟨r0, rs⟩ <;> rw [h2] at h
      · by_cases ha : pyIsSpace a
        · simp [ha] at h
        · simp [ha] at h
          simp [h.1]
      · cases h
        rfl

theorem dropTrailing_getLast {l : Str} {c : Char}
    (h : (dropTrailing l).getLast? = some c) : pyIsSpace c = false := by
  induction l with
  | nil => simp [dropTrailing] at h
  | cons a rest ih =>
      rw [dropTrailing] at h
      rcases h2 : dropTrailing rest with _ | ⟨r0, rs⟩ <;> rw [h2] at h
      · by_cases ha : pyIsSpace a
        · simp [ha] at h
        · simp [ha] at h
          rw [← h]
          simpa using ha
      · rw [List.getLast?_cons_cons] at h
        exact ih (h2 ▸ h)

theorem pyStrip_mem {s : Str} {c : Char} (h : c ∈ pyStrip s) : c ∈ s := by
  have h1 : c ∈ s.dropWhile pyIsSpace :=
    List.Sublist.mem h (dropTrailing_sublist (s.dropWhile pyIsSpace))
  exact List.Sublist.mem h1 (List.dropWhile_sublist pyIsSpace)

theorem pyStrip_head {s : Str} {c : Char} {t : Str}
    (h : pyStrip s = c :: t) : pyIsSpace c = false := by
  have h1 := dropTrailing_head h
  rcases h2 : s.dropWhile pyIsSpace with _ | ⟨a, r⟩
  · rw [h2] at h1; simp at h1
  · rw [h2] at h1
    simp at h1
    exact h1 ▸ dropWhile_head_not h2

theorem pyStrip_getLast {s : Str} {c : Char}
    (h : (pyStrip s).getLast? = some c) : pyIsSpace c = false :=
  dropTrailing_getLast h

theorem splitOnChar_not_mem_sep {sep : Char} {s piece : Str}
    (h : piece ∈ splitOnChar sep s) : sep ∉ piece := by
  induction s generalizing piece with
  | nil =>
      simp [splitOnChar] at h
      simp [h]
  | cons c rest ih =>
      rw [splitOnChar] at h
      by_cases hc : c = sep
      · simp [hc] at h
        rcases h with h | h
        · simp [h]
        · exact ih h
      · rw [if_neg hc] at h
        rcases h2 : splitOnChar sep rest with _ | ⟨s0, ss⟩ <;> rw [h2] at h
        · simp at h
          subst h
          intro hm
          rw [List.mem_singleton] at hm
          exact hc hm.symm
        · simp only [List.mem_cons] at h
          rcases h with h | h
          · subst h
            intro hm
            rw [List.mem_cons] at hm
            rcases hm with hm | hm
            · exact hc hm.symm
            · exact ih (h2 ▸ List.mem_cons_self s0 ss) hm
          · exact ih (h2 ▸ List.mem_cons_of_mem s0 h)

theorem splitOnChar_no_sep {sep : Char} {s : Str} (h : sep ∉ s) :
    splitOnChar sep s = [s] := by
  induction s with
  | nil => rfl
  | cons c rest ih =>
      rw [splitOnChar]
      have hc : ¬ c = sep := fun he => h (he ▸ List.mem_cons_self c rest)
      rw [if_neg hc, ih (fun hm => h (List.mem_cons_of_mem c hm))]

theorem rlAux_no_dash : ∀ {s : Str}, '-' ∉ s → rlAux false s = s := by
  intro s
  induction s with
  | nil => intro _; rfl
  | cons c rest ih =>
      intro h
      have hc : c ≠ '-' := fun he => h (he ▸ List.mem_cons_self c rest)
      have h2 : '-' ∉ rest := fun hm => h (List.mem_cons_of_mem c hm)
      rw [rlAux.eq_def]
      split <;> rename_i hb hl
      · simp at hl
      · rw [List.cons.injEq] at hl
        exact absurd hl.1 hc
      · rw [List.cons.injEq] at hl
        obtain ⟨e1, e2⟩ := hl
        subst e1
        subst e2
        rw [ih h2]
      · simp at hb
      · simp at hb
      · simp at hb

theorem rbAux_no_slash : ∀ {s : Str}, '/' ∉ s → rbAux none s = s := by
  intro s
  induction s with
  | nil => intro _; rfl
  | cons c rest ih =>
      intro h
      have hc : c ≠ '/' := fun he => h (he ▸ List.mem_cons_self c rest)
      have h2 : '/' ∉ rest := fun hm => h (List.mem_cons_of_mem c hm)
      rw [rbAux.eq_def]
      split <;> rename_i hb hl
      · simp at hl
      · rw [List.cons.injEq] at hl
        exact absurd hl.1 hc
      · rw [List.cons.injEq] at hl
        obtain ⟨e1, e2⟩ := hl
        subst e1
        subst e2
        rw [ih h2]
      · simp at hb
      · simp at hb
      · simp at hb

theorem rbAux_pend_no_closer :
    ∀ {s : Str} (pend : Str), isSubstrOf (chars "*/") s = false →
      rbAux (some pend) s = pend.reverse ++ s := by
  intro s
  induction s with
  | nil => intro pend _; simp [rbAux]
  | cons c rest ih =>
      intro pend h
      rw [isSubstrOf, Bool.or_eq_false_iff] at h
      obtain ⟨h1, h2⟩ := h
      rw [rbAux.eq_def]
      split <;> rename_i hb hl
      · simp at hb
      · simp at hb
      · simp at hb
      · simp at hl
      · rw [List.cons.injEq] at hl
        obtain ⟨e1, e2⟩ := hl
        subst e1
        rcases rest with _ | ⟨r0, r1⟩
        · simp at e2
        · rw [List.cons.injEq] at e2
          obtain ⟨e3, _⟩ := e2
          subst e3
          simp [chars, List.isPrefixOf] at h1
      · rw [Option.some.injEq] at hb
        subst hb
        rw [List.cons.injEq] at hl
        obtain ⟨e1, e2⟩ := hl
        subst e1
        subst e2
        rw [ih (c :: pend) h2]
        simp

theorem rbAux_pend_closer :
    ∀ {mid : Str} (pend post : Str), isSubstrOf (chars "*/") mid = false →
      rbAux (some pend) (mid ++ '*' :: '/' :: post) = rbAux none post := by
  intro mid
  induction mid with
  | nil => intro pend post _; rfl
  | cons c mrest ih =>
      intro pend post h
      rw [isSubstrOf, Bool.or_eq_false_iff] at h
      obtain ⟨h1, h2⟩ := h
      rw [List.cons_append, rbAux.eq_def]
      split <;> rename_i hb hl
      · simp at hb
      · simp at hb
      · simp at hb
      · simp at hl
      · rw [List.cons.injEq] at hl
        obtain ⟨e1, e2⟩ := hl
        subst e1
        rcases mrest with _ | ⟨m0, m1⟩
        · rw [List.nil_append, List.cons.injEq] at e2
          simp at e2
        · rw [List.cons_append, List.cons.injEq] at e2
          obtain ⟨e3, _⟩ := e2
          subst e3
          simp [chars, List.isPrefixOf] at h1
      · rw [Option.some.injEq] at hb
        subst hb
        rw [List.cons.injEq] at hl
        obtain ⟨e1, e2⟩ := hl
        subst e1
        subst e2
        exact ih (c :: pend) post h2

theorem applyAlterAction_issues_ext (table : Str) (st : AnalyzerState)
    (a : AlterAction) :
    ∃ t, ((applyAlterAction table st a).1).issues = st.issues ++ t := by
  cases a with
  | dropColumn col =>
      rcases h : alistGet table st.tables with _ | ti <;>
        simp [applyAlterAction, h]
  | addColumn c =>
      rcases h : alistGet table st.tables with _ | ti
      · exact ⟨[], by simp [applyAlterAction, h]⟩
      · by_cases hn : c.nullable <;> simp [applyAlterAction, h, hn]
  | setNotNull col => exact ⟨_, rfl⟩

theorem applyAlterAction_ast_eq (table : Str) (st : AnalyzerState)
    (a : AlterAction) : ((applyAlterAction table st a).1).ast = st.ast := by
  cases a with
  | dropColumn col =>
      rcases h : alistGet table st.tables with _ | ti <;>
        simp [applyAlterAction, h]
  | addColumn c =>
      rcases h : alistGet table st.tables with _ | ti
      · simp [applyAlterAction, h]
      · by_cases hn : c.nullable <;> simp [applyAlterAction, h, hn]
  | setNotNull col => rfl

theorem analyze_alter_issues_ext (table : Str) :
    ∀ (acts : List AlterAction) (st : AnalyzerState),
      ∃ t, ((analyze_alter table st acts).1).issues = st.issues ++ t := by
  intro acts
  induction acts with
  | nil => exact fun st => ⟨[], by simp [analyze_alter]⟩
  | cons a rest ih =>
      intro st
      obtain ⟨t1, ht1⟩ := applyAlterAction_issues_ext table st a
      rcases h : applyAlterAction table st a with ⟨st1, e⟩
      rw [h] at ht1
      simp only at ht1
      cases e with
      | none =>
          obtain ⟨t2, ht2⟩ := ih st1
          refine ⟨t1 ++ t2, ?_⟩
          rw [analyze_alter, h]
          simp only
          rw [ht2, ht1, List.append_assoc]
      | some e =>
          refine ⟨t1, ?_⟩
          rw [analyze_alter, h]
          simp only
          exact ht1

theorem analyze_alter_ast_eq (table : Str) :
    ∀ (acts : List AlterAction) (st : AnalyzerState),
      ((analyze_alter table st acts).1).ast = st.ast := by
  intro acts
  induction acts with
  | nil => intro st; rfl
  | cons a rest ih =>
      intro st
      have ha := applyAlterAction_ast_eq table st a
      rw [analyze_alter]
      rcases h : applyAlterAction table st a with ⟨st1, e⟩
      rw [h] at ha
      cases e with
      | none => rw [ih st1]; exact ha
      | some e => exact ha

theorem analyze_node_issues_ext (st : AnalyzerState) (node : DDLNode) :
    ∃ t, ((analyze_node st node).1).issues = st.issues ++ t := by
  cases node with
  | createTable tn cols tpk raw =>
      by_cases h :
          tpk ++ (cols.filter (fun c => c.is_primary_key)).map (fun c => c.name) = [] <;>
        simp [analyze_node, analyze_create, h]
  | alterTable tn acts raw => exact analyze_alter_issues_ext tn acts st
  | dropTable tn raw => exact ⟨_, rfl⟩

theorem analyze_node_ast_eq (st : AnalyzerState) (node : DDLNode) :
    ((analyze_node st node).1).ast = st.ast := by
  cases node with
  | createTable tn cols tpk raw => rfl
  | alterTable tn acts raw => exact analyze_alter_ast_eq tn acts st
  | dropTable tn raw => rfl

theorem runStatements_issues_ext :
    ∀ (stmts : List Str) (st : AnalyzerState),
      ∃ t, ((runStatements st stmts).1).issues = st.issues ++ t := by
  intro stmts
  induction stmts with
  | nil => exact fun st => ⟨[], by simp [runStatements]⟩
  | cons stmt rest ih =>
      intro st
      rcases hb : build_ast stmt with e | node
      · refine ⟨[], ?_⟩
        rw [runStatements, hb]
        simp
      · rcases node with _ | node
        · obtain ⟨t, ht⟩ := ih st
          refine ⟨t, ?_⟩
          rw [runStatements, hb]
          exact ht
        · obtain ⟨t1, ht1⟩ :=
            analyze_node_issues_ext { st with ast := st.ast ++ [node] } node
          rcases h : analyze_node { st with ast := st.ast ++ [node] } node with ⟨st2, e⟩
          rw [h] at ht1
          simp only at ht1
          cases e with
          | none =>
              obtain ⟨t2, ht2⟩ := ih st2
              refine ⟨t1 ++ t2, ?_⟩
              rw [runStatements, hb]
              simp only [h]
              rw [ht2, ht1, List.append_assoc]
          | some e =>
              refine ⟨t1, ?_⟩
              rw [runStatements, hb]
              simp only [h]
              exact ht1

theorem runStatements_ast_ext :
    ∀ (stmts : List Str) (st : AnalyzerState),
      ∃ t, ((runStatements st stmts).1).ast = st.ast ++ t := by
  intro stmts
  induction stmts with
  | nil => exact fun st => ⟨[], by simp [runStatements]⟩
  | cons stmt rest ih =>
      intro st
      rcases hb : build_ast stmt with e | node
      · refine ⟨[], ?_⟩
        rw [runStatements, hb]
        simp
      · rcases node with _ | node
        · obtain ⟨t, ht⟩ := ih st
          refine ⟨t, ?_⟩
          rw [runStatements, hb]
          exact ht
        · have ha := analyze_node_ast_eq { st with ast := st.ast ++ [node] } node
          rcases h : analyze_node { st with ast := st.ast ++ [node] } node with ⟨st2, e⟩
          rw [h] at ha
          simp only at ha
          cases e with
          | none =>
              obtain ⟨t2, ht2⟩ := ih st2
              refine ⟨[node] ++ t2, ?_⟩
              rw [runStatements, hb]
              simp only [h]
              rw [ht2, ha]
              simp [List.append_assoc]
          | some e =>
              refine ⟨[node], ?_⟩
              rw [runStatements, hb]
              simp only [h]
              exact ha

theorem parse_ddl_issues_ext (st : AnalyzerState) (ddl : Str) :
    ∃ t, ((parse_ddl st ddl).1).issues = st.issues ++ t := by
  obtain ⟨t, ht⟩ := runStatements_issues_ext (split_statements ddl) st
  rw [parse_ddl]
  rcases h : runStatements st (split_statements ddl) with ⟨st2, e⟩
  rw [h] at ht
  cases e <;> exact ⟨t, ht⟩

theorem parse_ddl_ast_ext (st : AnalyzerState) (ddl : Str) :
    ∃ t, ((parse_ddl st ddl).1).ast = st.ast ++ t := by
  obtain ⟨t, ht⟩ := runStatements_ast_ext (split_statements ddl) st
  rw [parse_ddl]
  rcases h : runStatements st (split_statements ddl) with ⟨st2, e⟩
  rw [h] at ht
  cases e <;> exact ⟨t, ht⟩

theorem critical_in_issueDropTable (t : Str) :
    isSubstrOf (chars "CRITICAL") (issueDropTable t) = true := rfl

/-! ## Claims -/

/-- C1 (code bug in the source): the claim says `parse_ddl` completes and
returns a result for every input, the builders returning "no node" when a
mandatory identifier is missing.  In fact `_build_drop_table_ast` calls
`.group(1)` on the result of `re.search` with no `None` check, so
`DROP TABLE` with no following name raises `AttributeError`; likewise an
ALTER clause containing `DROP COLUMN` with no identifier raises
`AttributeError`, and a bare `ADD COLUMN` clause raises `IndexError`.  In
the embedding a raised exception is the `none` second component: these
three runs return no result, refuting the claim on the code. -/
theorem c1_missing_identifier_raises :
    parse_ddl initState (chars "DROP TABLE") = (initState, none) ∧
    parse_ddl initState (chars "ALTER TABLE t DROP COLUMN") = (initState, none) ∧
    parse_ddl initState (chars "ALTER TABLE t ADD COLUMN") = (initState, none) := by
  refine ⟨by decide, by decide, by decide⟩

/-- C2 (code bug in the source): the claim says folding an `AlterTable`
node whose table is absent from the schema model never raises, appending
each action's issue while the mutation is a no-op.  In fact
`_analyze_alter` evaluates `self.tables[table]["columns"]` with no
existence check: `DROP COLUMN` on an unknown table appends its issue and
then raises `KeyError`, and `ADD COLUMN` on an unknown table raises
`KeyError` before its issue is even considered.  Only `SET NOT NULL`
behaves as claimed (issue appended, no mutation, no exception).  The three
evaluations below exhibit each behaviour; `none` as the second component
is a propagated exception. -/
theorem c2_alter_unknown_table_raises :
    parse_ddl initState (chars "ALTER TABLE missing DROP COLUMN c") =
      ({ tables := [],
         issues := [issueDropColumn (chars "c") (chars "missing")],
         ast := [DDLNode.alterTable (chars "missing")
                   [AlterAction.dropColumn (chars "c")]
                   (chars "ALTER TABLE missing DROP COLUMN c")] }, none) ∧
    parse_ddl initState (chars "ALTER TABLE ghost ADD COLUMN a INT NOT NULL") =
      ({ tables := [], issues := [],
         ast := [DDLNode.alterTable (chars "ghost")
                   [AlterAction.addColumn
                     { name := chars "a", col_type := chars "INT",
                       nullable := false, default := none, is_primary_key := false }]
                   (chars "ALTER TABLE ghost ADD COLUMN a INT NOT NULL")] }, none) ∧
    parse_ddl initState (chars "ALTER TABLE ghost ALTER COLUMN x SET NOT NULL") =
      ({ tables := [],
         issues := [issueSetNotNull (chars "ghost") (chars "x")],
         ast := [DDLNode.alterTable (chars "ghost")
                   [AlterAction.setNotNull (chars "x")]
                   (chars "ALTER TABLE ghost ALTER COLUMN x SET NOT NULL")] },
       some { tables := [],
              issues := [issueSetNotNull (chars "ghost") (chars "x")],
              summary := { total_tables := 0, total_issues := 1, critical_issues := 0 },
              ast := [DDLNode.alterTable (chars "ghost")
                        [AlterAction.setNotNull (chars "x")]
                        (chars "ALTER TABLE ghost ALTER COLUMN x SET NOT NULL")] }) := by
  refine ⟨by decide, by decide, by decide⟩

/-- C3, counterexample: the claim says the returned `ast` holds only the
nodes built during the current call.  `self.ast` is initialized once in
`__init__`, appended to by every call and never reset, and `parse_ddl`
returns it whole: after a second call on the same analyzer the returned
`ast` starts with the node built by the first call. -/
theorem c3_counterexample_ast_accumulates :
    ((parse_ddl (parse_ddl initState (chars "CREATE TABLE a (x INT)")).1
        (chars "CREATE TABLE b (y INT)")).2).map (fun r => r.ast) =
      some
        [DDLNode.createTable (chars "a")
           [{ name := chars "x", col_type := chars "INT", nullable := true,
              default := none, is_primary_key := false }] []
           (chars "CREATE TABLE a (x INT)"),
         DDLNode.createTable (chars "b")
           [{ name := chars "y", col_type := chars "INT", nullable := true,
              default := none, is_primary_key := false }] []
           (chars "CREATE TABLE b (y INT)")] := by
  decide

/-- C3, amended: the `ast` field of the returned structure is the
analyzer's cumulative list of all AST nodes built across every call on
that analyzer, extended in build order and never reset — so nodes from
earlier calls do appear in later calls' results.  Part one: a call only
appends to `self.ast`; part two: when a call returns, the returned `ast`
(and the other returned fields) are exactly the analyzer's current state;
part three: a concrete two-call run in which the second call's state ends
with the first call's node still in front. -/
theorem c3_ast_is_cumulative :
    (∀ (st : AnalyzerState) (ddl : Str),
        ∃ t, ((parse_ddl st ddl).1).ast = st.ast ++ t) ∧
    (∀ (st : AnalyzerState) (ddl : Str),
        (parse_ddl st ddl).2 = none ∨
        (parse_ddl st ddl).2 =
          some { tables := ((parse_ddl st ddl).1).tables,
                 issues := ((parse_ddl st ddl).1).issues,
                 summary := generate_summary (parse_ddl st ddl).1,
                 ast := ((parse_ddl st ddl).1).ast }) ∧
    ((parse_ddl (parse_ddl initState (chars "CREATE TABLE p (u INT)")).1
        (chars "CREATE TABLE q (v INT)")).1).ast =
      ((parse_ddl initState (chars "CREATE TABLE p (u INT)")).1).ast ++
        [DDLNode.createTable (chars "q")
           [{ name := chars "v", col_type := chars "INT", nullable := true,
              default := none, is_primary_key := false }] []
           (chars "CREATE TABLE q (v INT)")] := by
  refine ⟨parse_ddl_ast_ext, ?_, by decide⟩
  intro st ddl
  rcases h : runStatements st (split_statements ddl) with ⟨st2, e⟩
  cases e with
  | none => right; simp [parse_ddl, h]
  | some e => left; simp [parse_ddl, h]

/-- C4, counterexample: the claim says an unterminated block-comment
opener consumes all remaining text, none of it appearing in any output
statement.  The pattern `/\*.*?\*/` requires a closing `*/` and simply
does not match an unterminated comment, so the text from the opener to
the end of input stays in place and shows up as an output statement. -/
theorem c4_counterexample_unterminated_comment_kept :
    split_statements (chars "SELECT 1;/* oops") =
      [chars "SELECT 1", chars "/* oops"] := by
  decide

/-- C4, amended: an unterminated block comment is not removed at all —
the text from its opener to the end of input is left in place (and so can
appear in output statements); a terminated block comment is removed, each
span ending at its own nearest closer, with scanning resuming after it.
Part one: with no closer anywhere after the opener, the block-comment pass
leaves the text unchanged; part two: with a closer, the span up to the
nearest closer is removed and the pass continues on the remainder; part
three: a concrete two-comment script in which each span ends at its own
closer. -/
theorem c4_unterminated_comment_behaviour :
    (∀ rest : Str, isSubstrOf (chars "*/") rest = false →
        removeBlockComments ('/' :: '*' :: rest) = '/' :: '*' :: rest) ∧
    (∀ mid post : Str, isSubstrOf (chars "*/") mid = false →
        removeBlockComments ('/' :: '*' :: (mid ++ '*' :: '/' :: post)) =
          removeBlockComments post) ∧
    split_statements (chars "x /* c1 */ y; /* c2 */ z;") =
      [chars "x  y", chars "z"] := by
  refine ⟨?_, ?_, by decide⟩
  · intro rest h
    show rbAux (some ['*', '/']) rest = '/' :: '*' :: rest
    rw [rbAux_pend_no_closer ['*', '/'] h]
    rfl
  · intro mid post h
    show rbAux (some ['*', '/']) (mid ++ '*' :: '/' :: post) = rbAux none post
    exact rbAux_pend_closer ['*', '/'] post h

/-- Witness for C4: the two universal parts applied at concrete inputs. -/
theorem c4_unterminated_comment_behaviour_witness :
    removeBlockComments ('/' :: '*' :: chars " oops") = '/' :: '*' :: chars " oops" ∧
    removeBlockComments ('/' :: '*' :: (chars " c " ++ '*' :: '/' :: chars " tail")) =
      removeBlockComments (chars " tail") :=
  ⟨c4_unterminated_comment_behaviour.1 (chars " oops") (by decide),
   c4_unterminated_comment_behaviour.2.1 (chars " c ") (chars " tail") (by decide)⟩

/-- C5: the statement splitter removes line comments and (terminated)
block comments, splits the remainder on `;`, strips each piece, drops
empty pieces and preserves source order.  Part one: every output
statement is nonempty, contains no `;`, and is trimmed (its first and
last characters are not whitespace); part two: a script of whitespace
only yields the empty sequence; part three: a script of comments and
whitespace only yields the empty sequence; part four: a script whose
statements are surrounded by a line comment and a block comment splits
into exactly those statements, in order, with no comment text in them. -/
theorem c5_split_statements_contract :
    (∀ (ddl stmt : Str), stmt ∈ split_statements ddl →
        stmt ≠ [] ∧ ';' ∉ stmt ∧
        (∀ c ∈ stmt.head?, pyIsSpace c = false) ∧
        (∀ c ∈ stmt.getLast?, pyIsSpace c = false)) ∧
    (∀ s : Str, (∀ c ∈ s, pyIsSpace c = true) → split_statements s = []) ∧
    split_statements (chars "-- line comment only\n/* block comment */  \n") = [] ∧
    split_statements
        (chars "CREATE TABLE t (a INT); -- trailing note\n/* setup */ DROP TABLE t;") =
      [chars "CREATE TABLE t (a INT)", chars "DROP TABLE t"] := by
  refine ⟨?_, ?_, by decide, by decide⟩
  · intro ddl stmt hm
    rw [split_statements] at hm
    obtain ⟨hmem, hne⟩ := List.mem_filter.mp hm
    obtain ⟨piece, hpiece, hstrip⟩ := List.mem_map.mp hmem
    refine ⟨?_, ?_, ?_, ?_⟩
    · intro h
      rw [h] at hne
      simp at hne
    · intro hc
      exact splitOnChar_not_mem_sep hpiece (pyStrip_mem (hstrip ▸ hc))
    · intro c hc
      rcases hs : stmt with _ | ⟨c0, t⟩
      · rw [hs] at hc
        simp at hc
      · rw [hs] at hc
        simp at hc
        subst hc
        exact pyStrip_head (hstrip.trans hs)
    · intro c hc
      rw [← hstrip] at hc
      exact pyStrip_getLast hc
  · intro s hs
    have hd : '-' ∉ s := fun hm => by
      have := hs _ hm
      simp [pyIsSpace] at this
    have hsl : '/' ∉ s := fun hm => by
      have := hs _ hm
      simp [pyIsSpace] at this
    have hsemi : ';' ∉ s := fun hm => by
      have := hs _ hm
      simp [pyIsSpace] at this
    have hws : s.dropWhile pyIsSpace = [] := by
      rw [List.dropWhile_eq_nil_iff]
      exact fun a ha => hs a ha
    rw [split_statements, removeLineComments, rlAux_no_dash hd,
      removeBlockComments, rbAux_no_slash hsl, splitOnChar_no_sep hsemi]
    simp [pyStrip, hws, dropTrailing]

/-- Witness for C5: the universal parts applied at concrete inputs. -/
theorem c5_split_statements_contract_witness :
    (chars "a" ≠ [] ∧ ';' ∉ chars "a" ∧
      (∀ c ∈ (chars "a").head?, pyIsSpace c = false) ∧
      (∀ c ∈ (chars "a").getLast?, pyIsSpace c = false)) ∧
    split_statements (chars " \t ") = [] :=
  ⟨c5_split_statements_contract.1 (chars "a;b") (chars "a") (by decide),
   c5_split_statements_contract.2.1 (chars " \t ") (by decide)⟩

/-- C6: when a `CreateTable` node is folded, the recorded primary key is
the table-level `PRIMARY KEY(...)` names followed by the inline-marked
column names in declaration order (duplicates kept), and the
missing-PRIMARY-KEY issue is appended exactly when that combined list is
empty.  The two concrete runs check the end-to-end P4 instances:
`CREATE TABLE t (id INT)` yields exactly the one missing-PRIMARY-KEY
issue, and `CREATE TABLE t (id INT PRIMARY KEY)` yields no issue. -/
theorem c6_primary_key_rule :
    (∀ (st : AnalyzerState) (table : Str) (columns : List ColumnDef)
        (tpk : List Str),
        (alistGet table ((analyze_create st table columns tpk).tables)).map
            (fun ti => ti.primary_key) =
          some (tpk ++
            (columns.filter (fun c => c.is_primary_key)).map (fun c => c.name)) ∧
        (analyze_create st table columns tpk).issues =
          (if tpk ++
              (columns.filter (fun c => c.is_primary_key)).map (fun c => c.name) = []
           then st.issues ++ [issueMissingPK table]
           else st.issues)) ∧
    (parse_ddl initState (chars "CREATE TABLE t (id INT)")).1.issues =
      [issueMissingPK (chars "t")] ∧
    (parse_ddl initState (chars "CREATE TABLE t (id INT PRIMARY KEY)")).1.issues =
      [] := by
  refine ⟨?_, by decide, by decide⟩
  intro st table columns tpk
  constructor
  · simp [analyze_create, alistGet_set_self]
  · by_cases h :
        tpk ++ (columns.filter (fun c => c.is_primary_key)).map (fun c => c.name) = [] <;>
      simp [analyze_create, h]

/-- C7: folding a `DropTable` node appends exactly the one issue
`CRITICAL: DROP TABLE '<name>'`, removes the table entry if present
(`alistPop` is `dict.pop` with a default, so absence is tolerated), and
raises the CRITICAL-containing issue count of the summary by exactly 1.
The concrete run checks the end-to-end P6 instance. -/
theorem c7_drop_table_fold :
    (∀ (st : AnalyzerState) (table : Str),
        analyze_drop st table =
          { tables := alistPop table st.tables,
            issues := st.issues ++ [issueDropTable table],
            ast := st.ast } ∧
        (generate_summary (analyze_drop st table)).critical_issues =
          (generate_summary st).critical_issues + 1) ∧
    (parse_ddl initState
        (chars "CREATE TABLE t (a INT PRIMARY KEY); DROP TABLE t")).1.tables = [] ∧
    (parse_ddl initState
        (chars "CREATE TABLE t (a INT PRIMARY KEY); DROP TABLE t")).1.issues =
      [issueDropTable (chars "t")] ∧
    ((parse_ddl initState
        (chars "CREATE TABLE t (a INT PRIMARY KEY); DROP TABLE t")).2).map
        (fun r => r.summary) =
      some { total_tables := 0, total_issues := 1, critical_issues := 1 } := by
  refine ⟨?_, by decide, by decide, by decide⟩
  intro st table
  refine ⟨rfl, ?_⟩
  simp [generate_summary, analyze_drop, List.filter_append,
    critical_in_issueDropTable]

/-- C8: folding a `SetNotNull` action appends exactly the issue
`Risky: SET NOT NULL on '<table>.<col>'` and leaves the schema model (and
everything else but the issue list) unchanged — in particular the stored
nullability of the column is not updated, as the concrete run shows:
after `SET NOT NULL` on column `a` the model still records
`nullable = true` for it. -/
theorem c8_set_not_null_frame :
    (∀ (st : AnalyzerState) (table col : Str),
        applyAlterAction table st (AlterAction.setNotNull col) =
          ({ st with issues := st.issues ++ [issueSetNotNull table col] }, none)) ∧
    (parse_ddl initState
        (chars "CREATE TABLE t (a INT PRIMARY KEY); ALTER TABLE t ALTER COLUMN a SET NOT NULL")).1.issues =
      [issueSetNotNull (chars "t") (chars "a")] ∧
    alistGet (chars "t")
        ((parse_ddl initState
          (chars "CREATE TABLE t (a INT PRIMARY KEY); ALTER TABLE t ALTER COLUMN a SET NOT NULL")).1.tables) =
      some { columns := [(chars "a", { col_type := chars "INT", nullable := true })],
             primary_key := [chars "a"] } := by
  exact ⟨fun st table col => rfl, by decide, by decide⟩

/-- C9: schema state and the issue list persist across `parse_ddl` calls
on one analyzer and are never implicitly reset.  Part one: any call only
appends to the issue list — previously appended issues are never removed,
modified or reordered; parts two and three: calling `parse_ddl` twice
with two different CREATE TABLE scripts leaves a schema model containing
both tables and an issue list that is the concatenation of the two calls'
issues in call order. -/
theorem c9_cumulative_sessions :
    (∀ (st : AnalyzerState) (ddl : Str),
        ∃ t, ((parse_ddl st ddl).1).issues = st.issues ++ t) ∧
    (parse_ddl initState (chars "CREATE TABLE a (x INT)")).1.issues =
      [issueMissingPK (chars "a")] ∧
    ((parse_ddl (parse_ddl initState (chars "CREATE TABLE a (x INT)")).1
        (chars "CREATE TABLE b (y INT)")).2).map
        (fun r => (r.tables.map Prod.fst, r.issues)) =
      some ([chars "a", chars "b"],
            [issueMissingPK (chars "a"), issueMissingPK (chars "b")]) := by
  exact ⟨parse_ddl_issues_ext, by decide, by decide⟩

/-- C10: a CREATE TABLE statement with a table name but no parenthesized
body is not skipped: the builder finds no body (`re.search(r"\((.*)\)")`
fails), so the node has zero columns and an empty table-level primary
key; folding it inserts a table entry with an empty column map and an
empty primary key and appends the missing-PRIMARY-KEY issue, and the call
returns normally. -/
theorem c10_create_table_without_body :
    parse_ddl initState (chars "CREATE TABLE t") =
      ({ tables := [(chars "t", { columns := [], primary_key := [] })],
         issues := [issueMissingPK (chars "t")],
         ast := [DDLNode.createTable (chars "t") [] [] (chars "CREATE TABLE t")] },
       some { tables := [(chars "t", { columns := [], primary_key := [] })],
              issues := [issueMissingPK (chars "t")],
              summary := { total_tables := 1, total_issues := 1, critical_issues := 0 },
              ast := [DDLNode.createTable (chars "t") [] []
                        (chars "CREATE TABLE t")] }) := by
  decide
